import Mathlib

/-!
# Verification of the flaecs entity/component storage core

Shallow embedding of `src/world.rs` and `src/entity.rs`:

* `Entity` mirrors the Rust struct `Entity { index: u32, version: u32 }`
  (fields as `Nat`; all indices produced by the allocator stay below `2^32`,
  and the source's `as u32` casts are written as `% 2^32` where they occur).
* `ComponentStorage` mirrors the sparse-set storage (`sparse`, `dense`,
  `data` vectors). `UnsafeCell<T>` wrappers carry no observable state and
  are dropped.
* `World` mirrors the façade.  The `AHashMap<TypeId, ErasedPtr>` type
  registry is modelled for one component type `T` at a time as
  `Option (ComponentStorage T)` (registry entry missing or present);
  storages of distinct component types never interact, so each claim is
  settled at a single type instance.

Rust operations that can abort (index out of bounds on `Vec`/`BitVec`,
`usize`/`u32` overflow checks) are embedded as `Option`-returning
functions: `none` models a panic, `some` a normal return.  Fallible
operations return `Option (Except Error _)` — the outer layer models
panics, the inner layer the `Result` value.
-/

namespace Flaecs

deriving instance DecidableEq for Except

/-- `std::u32::MAX`, the sentinel stored in `sparse` for "no entry". -/
def u32Max : Nat := 4294967295

/-- `Entity { index: u32, version: u32 }` from `src/entity.rs`. -/
structure Entity where
  index : Nat
  version : Nat
deriving DecidableEq, Repr

/-- The `Error` enum from `src/world.rs`. -/
inductive Error where
  | VersionMismatch
  | ComponentNotFound
deriving DecidableEq, Repr

/-- `ComponentStorage<T>` from `src/world.rs`: a sparse set.
`sparse` holds indices into `dense` (or the sentinel `u32Max`), `dense`
holds entity indices, `data` the component values aligned with `dense`. -/
structure ComponentStorage (T : Type) where
  sparse : List Nat
  dense : List Nat
  data : List T
deriving DecidableEq, Repr

namespace ComponentStorage

variable {T : Type}

/-- `ComponentStorage::new(world)`: `sparse = vec![u32::MAX; world.size()]`,
empty `dense` and `data`.  The argument is `world.size()` = `num_entities`. -/
def new (worldSize : Nat) : ComponentStorage T :=
  { sparse := List.replicate worldSize u32Max, dense := [], data := [] }

/-- `ComponentStorage::get_ptr`.  Outer `none` = panic (the source indexes
`self.dense[dense_index]` and `self.data[dense_index]` with plain `[]`,
which aborts when out of bounds); `some none` = the source's `None`;
`some (some v)` = the source's `Some(ptr)` with `v` the pointee. -/
def get_ptr (s : ComponentStorage T) (index : Nat) : Option (Option T) :=
  if h : index < s.sparse.length then
    let dense_index := s.sparse.get ⟨index, h⟩
    match s.dense[dense_index]? with
    | none => none
    | some entity_stored =>
      if entity_stored ≠ index then some none
      else
        match s.data[dense_index]? with
        | none => none
        | some v => some (some v)
  else
    some none

/-- `ComponentStorage::extend_if_necessary`: pad `sparse` with sentinels up
to and including `index`. -/
def extend_if_necessary (s : ComponentStorage T) (index : Nat) : ComponentStorage T :=
  if index ≥ s.sparse.length then
    { s with sparse := s.sparse ++ List.replicate (index - s.sparse.length + 1) u32Max }
  else
    s

/-- `ComponentStorage::insert`: extend `sparse`, then unconditionally push
onto `dense`/`data` and point `sparse[index]` at the new dense slot.
The source's `as u32` casts appear as `% 2^32`. -/
def insert (s : ComponentStorage T) (index : Nat) (component : T) : ComponentStorage T :=
  let s1 := s.extend_if_necessary index
  let dense_index := s1.dense.length % 2 ^ 32
  { sparse := s1.sparse.set index dense_index
    dense := s1.dense ++ [index % 2 ^ 32]
    data := s1.data ++ [component] }

/-- Rust `Vec::swap_remove(i)`: overwrite slot `i` with the last element,
then pop the last element.  (The source only calls it with `i` in bounds.) -/
def swapRemove (xs : List α) (i : Nat) : List α :=
  match xs.getLast? with
  | none => xs
  | some last => (xs.set i last).dropLast

/-- `ComponentStorage::remove`.  Outer `none` = panic.  The source's final
line `self.sparse[self.dense[dense_index as usize] as usize] = dense_index`
reads `dense[dense_index]` with plain indexing after the swap-remove, and
writes into `sparse` with plain indexing: both abort when out of bounds. -/
def remove (s : ComponentStorage T) (index : Nat) :
    Option (ComponentStorage T × Bool) :=
  match s.get_ptr index with
  | none => none
  | some none => some (s, false)
  | some (some _) =>
    -- `self.sparse[index]`: in bounds because `get_ptr` resolved, so the
    -- `getD` default is never consulted.
    let dense_index := s.sparse.getD index u32Max
    let s2 : ComponentStorage T :=
      if s.dense.length = 1 then
        { s with dense := [], data := [] }
      else
        { s with dense := swapRemove s.dense dense_index
                 data := swapRemove s.data dense_index }
    match s2.dense[dense_index]? with
    | none => none
    | some moved =>
      if moved < s2.sparse.length then
        some ({ s2 with sparse := s2.sparse.set moved dense_index }, true)
      else
        none

end ComponentStorage

/-- `World` from `src/world.rs`, with the type registry restricted to the
single component type `T` (see the module docstring). -/
structure World (T : Type) where
  versions : List Nat
  alive : List Bool
  free : List Nat
  storage : Option (ComponentStorage T)
  entity_counter : Nat
  num_entities : Nat
deriving DecidableEq, Repr

namespace World

variable {T : Type}

/-- `World::new`. -/
def new : World T :=
  { versions := [], alive := [], free := [], storage := none
    entity_counter := 0, num_entities := 0 }

/-- `World::alloc_more_entities`: extend `alive` with 64 `false` bits and
`versions` with 64 zeroes. -/
def alloc_more_entities (w : World T) : World T :=
  { w with alive := w.alive ++ List.replicate 64 false
           versions := w.versions ++ List.replicate 64 0 }

/-- `World::spawn` with an empty component bundle (the bundle glue applies
`add` per element afterwards; an empty bundle adds nothing).  `none` =
panic: `self.versions[index] += 1` or `self.alive.set(index, true)` out of
bounds, or a `u32` overflow check on `+= 1` (debug profile). -/
def spawn (w : World T) : Option (Entity × World T) :=
  let p : Nat × World T :=
    match w.free with
    | i :: rest => (i, { w with free := rest })
    | [] =>
      let w1 := if w.entity_counter ≥ w.versions.length then w.alloc_more_entities else w
      (w1.entity_counter, w1)
  let index := p.1
  let w1 := p.2
  if w.free.isEmpty && w.entity_counter == u32Max then
    none
  else
    match w1.versions[index]? with
    | none => none
    | some v =>
      if v = u32Max then none
      else
        let w2 := { w1 with versions := w1.versions.set index (v + 1) }
        if index < w2.alive.length then
          let w3 := { w2 with alive := w2.alive.set index true }
          some (⟨index, v + 1⟩,
            { w3 with
                entity_counter :=
                  match w.free with
                  | [] => w3.entity_counter + 1
                  | _ :: _ => w3.entity_counter
                num_entities := w3.num_entities + 1 })
        else
          none

/-- `World::is_alive`: `self.alive[entity.index as usize]`.  `none` = the
bitset index panic when `index` is out of range. -/
def is_alive (w : World T) (e : Entity) : Option Bool :=
  w.alive[e.index]?

/-- `World::check_valid_entity`.  The `&&` short-circuits, so
`self.versions[entity.index]` is only read when the liveness bit is set. -/
def check_valid_entity (w : World T) (e : Entity) : Option (Except Error Unit) :=
  match w.alive[e.index]? with
  | none => none
  | some a =>
    if a then
      match w.versions[e.index]? with
      | none => none
      | some v =>
        if v = e.version then some (Except.ok ()) else some (Except.error Error.VersionMismatch)
    else
      some (Except.error Error.VersionMismatch)

/-- `World::despawn`: validate, clear the liveness bit, decrement
`num_entities`.  The index is *not* pushed onto `free`, and the version is
untouched.  `none` = panic (`usize` underflow on `num_entities -= 1`). -/
def despawn (w : World T) (e : Entity) : Option (Except Error (World T)) :=
  match w.check_valid_entity e with
  | none => none
  | some (Except.error err) => some (Except.error err)
  | some (Except.ok _) =>
    if e.index < w.alive.length then
      if w.num_entities = 0 then none
      else
        some (Except.ok
          { w with alive := w.alive.set e.index false
                   num_entities := w.num_entities - 1 })
    else
      none

/-- `World::get`: validate, resolve the storage (absent → ComponentNotFound),
then `storage.get` (`None` → ComponentNotFound). -/
def get (w : World T) (e : Entity) : Option (Except Error T) :=
  match w.check_valid_entity e with
  | none => none
  | some (Except.error err) => some (Except.error err)
  | some (Except.ok _) =>
    match w.storage with
    | none => some (Except.error Error.ComponentNotFound)
    | some s =>
      match s.get_ptr e.index with
      | none => none
      | some none => some (Except.error Error.ComponentNotFound)
      | some (some v) => some (Except.ok v)

/-- `World::get_mut`: identical resolution path to `get` (both go through
`ComponentStorage::get_ptr`). -/
def get_mut (w : World T) (e : Entity) : Option (Except Error T) :=
  match w.check_valid_entity e with
  | none => none
  | some (Except.error err) => some (Except.error err)
  | some (Except.ok _) =>
    match w.storage with
    | none => some (Except.error Error.ComponentNotFound)
    | some s =>
      match s.get_ptr e.index with
      | none => none
      | some none => some (Except.error Error.ComponentNotFound)
      | some (some v) => some (Except.ok v)

/-- `World::add`: validate, resolve or lazily create the storage
(`ComponentStorage::new(self)` sizes `sparse` by `world.size()`), then
`insert`. -/
def add (w : World T) (e : Entity) (component : T) : Option (Except Error (World T)) :=
  match w.check_valid_entity e with
  | none => none
  | some (Except.error err) => some (Except.error err)
  | some (Except.ok _) =>
    let s : ComponentStorage T :=
      match w.storage with
      | some s => s
      | none => ComponentStorage.new w.num_entities
    some (Except.ok { w with storage := some (s.insert e.index component) })

/-- `World::remove`: validate, resolve the storage (absent →
ComponentNotFound), then `storage.remove` (`false` → ComponentNotFound). -/
def remove (w : World T) (e : Entity) : Option (Except Error (World T)) :=
  match w.check_valid_entity e with
  | none => none
  | some (Except.error err) => some (Except.error err)
  | some (Except.ok _) =>
    match w.storage with
    | none => some (Except.error Error.ComponentNotFound)
    | some s =>
      match s.remove e.index with
      | none => none
      | some (s2, ok) =>
        if ok then some (Except.ok { w with storage := some s2 })
        else some (Except.error Error.ComponentNotFound)

/-- `World::size`. -/
def size (w : World T) : Nat :=
  w.num_entities

/-- `World::clear`: clears `versions`, `alive`, the registry and
`num_entities`.  `free` and `entity_counter` are *not* touched, and the
registered storages are dropped without running component destructors
(the source marks this `// TODO: proper storage clear`). -/
def clear (w : World T) : World T :=
  { w with versions := [], alive := [], storage := none, num_entities := 0 }

end World

/-- One public operation of the façade, for trace reasoning.  The bundle
glue of `spawn(bundle)` is the sequence `spawn` then one `add` per bundle
element, so traces over these operations cover bundle spawns as well. -/
inductive Op (T : Type) where
  | spawn
  | despawn (e : Entity)
  | addOp (e : Entity) (c : T)
  | removeOp (e : Entity)
  | getOp (e : Entity)
  | getMutOp (e : Entity)
  | isAliveOp (e : Entity)
  | sizeOp
  | clearOp
deriving DecidableEq, Repr

namespace Op

/-- Whether the operation is `clear`. -/
def isClear : Op T → Bool
  | .clearOp => true
  | _ => false

end Op

namespace World

variable {T : Type}

/-- Run one public operation.  `none` = the operation panicked; an `Err`
return value leaves the world unchanged (the façade mutates nothing before
validation succeeds). -/
def step (w : World T) (op : Op T) : Option (World T) :=
  match op with
  | .spawn => (w.spawn).map Prod.snd
  | .despawn e =>
    match w.despawn e with
    | none => none
    | some (Except.ok w2) => some w2
    | some (Except.error _) => some w
  | .addOp e c =>
    match w.add e c with
    | none => none
    | some (Except.ok w2) => some w2
    | some (Except.error _) => some w
  | .removeOp e =>
    match w.remove e with
    | none => none
    | some (Except.ok w2) => some w2
    | some (Except.error _) => some w
  | .getOp e => (w.get e).map (fun _ => w)
  | .getMutOp e => (w.get_mut e).map (fun _ => w)
  | .isAliveOp e => (w.is_alive e).map (fun _ => w)
  | .sizeOp => some w
  | .clearOp => some w.clear

/-- Run a list of public operations left to right; `none` as soon as one
panics. -/
def runOps (w : World T) : List (Op T) → Option (World T)
  | [] => some w
  | op :: ops =>
    match w.step op with
    | none => none
    | some w2 => runOps w2 ops

/-- Run a list of public operations, collecting the entities returned by
the `spawn` calls in order. -/
def runTrace (w : World T) : List (Op T) → Option (World T × List Entity)
  | [] => some (w, [])
  | op :: ops =>
    match op with
    | .spawn =>
      match w.spawn with
      | none => none
      | some (e, w2) =>
        match runTrace w2 ops with
        | none => none
        | some (w3, es) => some (w3, e :: es)
    | _ =>
      match w.step op with
      | none => none
      | some w2 => runTrace w2 ops

end World

/-- Validity of a handle, as checked by `check_valid_entity`: the slot's
liveness bit is set and the stored version equals the handle's. -/
def Valid (w : World T) (e : Entity) : Prop :=
  w.alive[e.index]? = some true ∧ w.versions[e.index]? = some e.version

/-- Invariant of every world reachable from `World.new`: the free queue is
empty, `versions` and `alive` always have the same length, and every slot
at or above the high-water mark `entity_counter` is dead with version 0. -/
def GInv (w : World T) : Prop :=
  w.free = [] ∧
  w.versions.length = w.alive.length ∧
  (∀ i b, w.entity_counter ≤ i → w.alive[i]? = some b → b = false) ∧
  (∀ i v, w.entity_counter ≤ i → w.versions[i]? = some v → v = 0)

/-- State of a despawned handle's slot: the index is below the high-water
mark, its liveness bit is clear, and the free queue is empty (so no later
spawn can ever hand the index out again). -/
def DeadIdx (w : World T) (e : Entity) : Prop :=
  w.free = [] ∧ e.index < w.entity_counter ∧ w.alive[e.index]? = some false

/-- The world after `spawn()` on a fresh world (used by the C7 scenario). -/
def c7w1 : World Unit :=
  { versions := (List.replicate 64 0).set 0 1
    alive := (List.replicate 64 false).set 0 true
    free := [], storage := none, entity_counter := 1, num_entities := 1 }

/-- `c7w1` after `despawn(⟨0,1⟩)`. -/
def c7w2 : World Unit :=
  { c7w1 with alive := ((List.replicate 64 false).set 0 true).set 0 false
              num_entities := 0 }

/-- `c7w2` after a further `spawn()` (which allocates index 1, not 0). -/
def c7w3 : World Unit :=
  { versions := ((List.replicate 64 0).set 0 1).set 1 1
    alive := (((List.replicate 64 false).set 0 true).set 0 false).set 1 true
    free := [], storage := none, entity_counter := 2, num_entities := 1 }

/-- The world after `spawn()` on a fresh world (used by the C8 witness). -/
def c8w : World Unit :=
  { versions := (List.replicate 64 0).set 0 1
    alive := (List.replicate 64 false).set 0 true
    free := [], storage := none, entity_counter := 1, num_entities := 1 }

/-- The world after two `spawn()` calls on a fresh world (C10 witness). -/
def c10w : World Unit :=
  { versions := ((List.replicate 64 0).set 0 1).set 1 1
    alive := ((List.replicate 64 false).set 0 true).set 1 true
    free := [], storage := none, entity_counter := 2, num_entities := 2 }

/-! ## Helper lemmas about list lookups -/

/-- An in-bounds lookup survives appending on the right. -/
theorem getElem?_append_some {l l2 : List α} {j : Nat} {b : α}
    (h : l[j]? = some b) : (l ++ l2)[j]? = some b := by
  have hj : j < l.length := by
    rcases Nat.lt_or_ge j l.length with h1 | h1
    · exact h1
    · rw [List.getElem?_eq_none h1] at h
      cases h
  rw [List.getElem?_append_left hj]
  exact h

/-! ## Invariant lemmas -/

/-- The freshly constructed world satisfies the reachability invariant. -/
theorem GInv_new : GInv (World.new : World T) := by
  refine ⟨rfl, rfl, ?_, ?_⟩ <;> intro i x hi hx <;> simp [World.new] at hx

/-- `alloc_more_entities` preserves the invariant (the appended slots are
dead with version 0). -/
theorem GInv_alloc {w : World T} (h : GInv w) : GInv w.alloc_more_entities := by
  obtain ⟨h1, h2, h3, h4⟩ := h
  refine ⟨h1, ?_, ?_, ?_⟩
  · simp [World.alloc_more_entities, h2]
  · intro i b hi hb
    simp only [World.alloc_more_entities] at hb
    rcases Nat.lt_or_ge i w.alive.length with hlt | hge
    · exact h3 i b hi (by rwa [List.getElem?_append_left hlt] at hb)
    · rw [List.getElem?_append_right hge] at hb
      exact List.eq_of_mem_replicate (List.getElem?_mem hb)
  · intro i v hi hv
    simp only [World.alloc_more_entities] at hv
    rcases Nat.lt_or_ge i w.versions.length with hlt | hge
    · exact h4 i v hi (by rwa [List.getElem?_append_left hlt] at hv)
    · rw [List.getElem?_append_right hge] at hv
      exact List.eq_of_mem_replicate (List.getElem?_mem hv)

/-- A successful `check_valid_entity` means the handle is valid. -/
theorem check_valid_ok {w : World T} {e : Entity} {u : Unit}
    (h : w.check_valid_entity e = some (Except.ok u)) : Valid w e := by
  unfold World.check_valid_entity at h
  split at h
  · cases h
  · rename_i a ha
    split at h
    · rename_i hat
      split at h
      · cases h
      · rename_i v hv
        split at h
        · rename_i hveq
          exact ⟨by rwa [hat] at ha, by rwa [hveq] at hv⟩
        · cases h
    · cases h

/-- A valid handle passes `check_valid_entity`. -/
theorem check_valid_of_valid {w : World T} {e : Entity} (h : Valid w e) :
    w.check_valid_entity e = some (Except.ok ()) := by
  unfold World.check_valid_entity
  rw [h.1, h.2]
  simp

/-- A dead slot makes `check_valid_entity` return VersionMismatch. -/
theorem check_valid_of_dead {w : World T} {e : Entity}
    (h : w.alive[e.index]? = some false) :
    w.check_valid_entity e = some (Except.error Error.VersionMismatch) := by
  unfold World.check_valid_entity
  rw [h]
  simp

/-- `[a][n]? = none` for `n` beyond the end, without kernel-evaluating a
huge index literal. -/
theorem getElem?_singleton_u32Max {a : Nat} : ([a] : List Nat)[u32Max]? = none :=
  List.getElem?_eq_none (by simp [u32Max])

/-- A successful optional lookup is in bounds. -/
theorem lt_length_of_getElem?_some {l : List α} {i : Nat} {a : α}
    (h : l[i]? = some a) : i < l.length := by
  rcases Nat.lt_or_ge i l.length with h1 | h1
  · exact h1
  · rw [List.getElem?_eq_none h1] at h
    cases h

/-- Characterization of a successful `spawn` from a state satisfying the
invariant: the returned handle is `⟨entity_counter, 1⟩`, the counter
advances by one, the invariant is preserved, the new slot is alive, and
every other slot's liveness bit is untouched. -/
theorem spawn_succ {w w2 : World T} {e : Entity} (h : GInv w)
    (hs : w.spawn = some (e, w2)) :
    e.index = w.entity_counter ∧ e.version = 1 ∧
    w2.entity_counter = w.entity_counter + 1 ∧ GInv w2 ∧
    w2.alive[e.index]? = some true ∧
    (∀ j b, j ≠ w.entity_counter → w.alive[j]? = some b → w2.alive[j]? = some b) := by
  obtain ⟨h1, h2, h3, h4⟩ := h
  simp only [World.spawn, h1, List.isEmpty_nil, Bool.true_and] at hs
  split at hs
  · exact Option.noConfusion hs
  · split at hs
    · exact Option.noConfusion hs
    · rename_i v heq
      generalize hw1 : (if w.entity_counter ≥ w.versions.length
          then w.alloc_more_entities else w) = w1 at heq hs
      have hgw1 : GInv w1 := by
        rw [← hw1]
        split
        · exact GInv_alloc ⟨h1, h2, h3, h4⟩
        · exact ⟨h1, h2, h3, h4⟩
      have hcw1 : w1.entity_counter = w.entity_counter := by
        rw [← hw1]
        split <;> rfl
      have hpres : ∀ (j : Nat) (b : Bool), w.alive[j]? = some b → w1.alive[j]? = some b := by
        rw [← hw1]
        split
        · intro j b hb
          simp only [World.alloc_more_entities]
          exact getElem?_append_some hb
        · exact fun j b hb => hb
      have hv0 : v = 0 := hgw1.2.2.2 w1.entity_counter v (Nat.le_refl _) heq
      subst hv0
      split at hs
      · exact Option.noConfusion hs
      · split at hs
        · rename_i hidx
          simp only [Option.some.injEq, Prod.mk.injEq] at hs
          obtain ⟨he, hw2⟩ := hs
          subst he
          subst hw2
          refine ⟨hcw1, rfl, ?_, ⟨hgw1.1, ?_, ?_, ?_⟩, ?_, ?_⟩
          · show w1.entity_counter + 1 = w.entity_counter + 1
            rw [hcw1]
          · show (w1.versions.set w1.entity_counter (0 + 1)).length
              = (w1.alive.set w1.entity_counter true).length
            simp only [List.length_set]
            exact hgw1.2.1
          · intro i b hi hb
            have hi2 : w1.entity_counter + 1 ≤ i := hi
            have hb2 : (w1.alive.set w1.entity_counter true)[i]? = some b := hb
            rw [List.getElem?_set_ne (by omega : w1.entity_counter ≠ i)] at hb2
            exact hgw1.2.2.1 i b (by omega) hb2
          · intro i v2 hi hv2
            have hi2 : w1.entity_counter + 1 ≤ i := hi
            have hv22 : (w1.versions.set w1.entity_counter (0 + 1))[i]? = some v2 := hv2
            rw [List.getElem?_set_ne (by omega : w1.entity_counter ≠ i)] at hv22
            exact hgw1.2.2.2 i v2 (by omega) hv22
          · show (w1.alive.set w1.entity_counter true)[w1.entity_counter]? = some true
            exact List.getElem?_set_self hidx
          · intro j b hj hb
            show (w1.alive.set w1.entity_counter true)[j]? = some b
            rw [List.getElem?_set_ne (by rw [hcw1]; exact fun hx => hj hx.symm)]
            exact hpres j b hb
        · exact Option.noConfusion hs

/-- Characterization of a successful `despawn`: the handle was valid, only
the liveness bit and the entity count change. -/
theorem despawn_succ {w w1 : World T} {e : Entity}
    (h : w.despawn e = some (Except.ok w1)) :
    Valid w e ∧
    w1.versions = w.versions ∧ w1.free = w.free ∧
    w1.entity_counter = w.entity_counter ∧ w1.storage = w.storage ∧
    w1.alive = w.alive.set e.index false := by
  unfold World.despawn at h
  split at h
  · exact Option.noConfusion h
  · exact Except.noConfusion (Option.some.inj h)
  · rename_i u heq
    split at h
    · split at h
      · exact Option.noConfusion h
      · simp only [Option.some.injEq, Except.ok.injEq] at h
        subst h
        exact ⟨check_valid_ok heq, rfl, rfl, rfl, rfl, rfl⟩
    · exact Option.noConfusion h

/-- Characterization of a successful `add`: the handle was valid, only the
storage changes, and afterwards a storage for the type exists. -/
theorem add_succ {w w1 : World T} {e : Entity} {c : T}
    (h : w.add e c = some (Except.ok w1)) :
    Valid w e ∧
    w1.versions = w.versions ∧ w1.free = w.free ∧ w1.alive = w.alive ∧
    w1.entity_counter = w.entity_counter ∧ w1.num_entities = w.num_entities ∧
    w1.storage.isSome = true := by
  unfold World.add at h
  split at h
  · exact Option.noConfusion h
  · exact Except.noConfusion (Option.some.inj h)
  · rename_i u heq
    simp only [Option.some.injEq, Except.ok.injEq] at h
    subst h
    exact ⟨check_valid_ok heq, rfl, rfl, rfl, rfl, rfl, rfl⟩

/-- Characterization of a successful `remove`: only the storage changes. -/
theorem remove_succ {w w1 : World T} {e : Entity}
    (h : w.remove e = some (Except.ok w1)) :
    w1.versions = w.versions ∧ w1.free = w.free ∧ w1.alive = w.alive ∧
    w1.entity_counter = w.entity_counter ∧ w1.num_entities = w.num_entities := by
  unfold World.remove at h
  split at h
  · exact Option.noConfusion h
  · exact Except.noConfusion (Option.some.inj h)
  · split at h
    · exact Except.noConfusion (Option.some.inj h)
    · split at h
      · exact Option.noConfusion h
      · split at h
        · simp only [Option.some.injEq, Except.ok.injEq] at h
          subst h
          exact ⟨rfl, rfl, rfl, rfl, rfl⟩
        · exact Except.noConfusion (Option.some.inj h)

/-- The invariant only concerns the allocator fields. -/
theorem GInv_congr {w w2 : World T} (h : GInv w) (hf : w2.free = w.free)
    (hv : w2.versions = w.versions) (ha : w2.alive = w.alive)
    (hc : w2.entity_counter = w.entity_counter) : GInv w2 := by
  obtain ⟨h1, h2, h3, h4⟩ := h
  refine ⟨by rw [hf]; exact h1, by rw [hv, ha]; exact h2, ?_, ?_⟩
  · intro i b hi hb
    exact h3 i b (by rwa [hc] at hi) (by rwa [ha] at hb)
  · intro i v hi hv2
    exact h4 i v (by rwa [hc] at hi) (by rwa [hv] at hv2)

/-- A successful `despawn` preserves the invariant. -/
theorem GInv_despawn {w w1 : World T} {e : Entity} (hg : GInv w)
    (h : w.despawn e = some (Except.ok w1)) : GInv w1 := by
  obtain ⟨-, hv, hf, hc, -, ha⟩ := despawn_succ h
  refine ⟨by rw [hf]; exact hg.1, ?_, ?_, ?_⟩
  · rw [hv, ha, List.length_set]
    exact hg.2.1
  · intro i b hi hb
    rw [ha, List.getElem?_set] at hb
    split at hb
    · split at hb
      · exact (Option.some.inj hb).symm
      · exact Option.noConfusion hb
    · exact hg.2.2.1 i b (by rwa [hc] at hi) hb
  · intro i v2 hi hv2
    rw [hv] at hv2
    exact hg.2.2.2 i v2 (by rwa [hc] at hi) hv2

/-- `clear` preserves the invariant (it empties `versions`/`alive` and
leaves `free` and the counter alone). -/
theorem GInv_clear {w : World T} (hg : GInv w) : GInv w.clear := by
  refine ⟨hg.1, rfl, ?_, ?_⟩ <;> intro i x hi hx <;> simp [World.clear] at hx

/-- Every public operation that returns preserves the invariant and never
decreases the high-water mark. -/
theorem step_GInv_mono {w w2 : World T} {op : Op T} (hg : GInv w)
    (hs : w.step op = some w2) :
    GInv w2 ∧ w.entity_counter ≤ w2.entity_counter := by
  cases op with
  | spawn =>
    simp only [World.step] at hs
    cases hsp : w.spawn with
    | none => rw [hsp] at hs; exact Option.noConfusion hs
    | some p =>
      rw [hsp] at hs
      obtain ⟨e, wn⟩ := p
      simp only [Option.map_some'] at hs
      obtain rfl : wn = w2 := Option.some.inj hs
      obtain ⟨-, -, hc, hg2, -, -⟩ := spawn_succ hg hsp
      exact ⟨hg2, by omega⟩
  | despawn e =>
    simp only [World.step] at hs
    split at hs
    · exact Option.noConfusion hs
    · rename_i w3 heq
      obtain rfl : w3 = w2 := Option.some.inj hs
      exact ⟨GInv_despawn hg heq, le_of_eq (despawn_succ heq).2.2.2.1.symm⟩
    · obtain rfl : w = w2 := Option.some.inj hs
      exact ⟨hg, le_refl _⟩
  | addOp e c =>
    simp only [World.step] at hs
    split at hs
    · exact Option.noConfusion hs
    · rename_i w3 heq
      obtain rfl : w3 = w2 := Option.some.inj hs
      obtain ⟨-, hv, hf, ha, hc, -, -⟩ := add_succ heq
      exact ⟨GInv_congr hg hf hv ha hc, le_of_eq hc.symm⟩
    · obtain rfl : w = w2 := Option.some.inj hs
      exact ⟨hg, le_refl _⟩
  | removeOp e =>
    simp only [World.step] at hs
    split at hs
    · exact Option.noConfusion hs
    · rename_i w3 heq
      obtain rfl : w3 = w2 := Option.some.inj hs
      obtain ⟨hv, hf, ha, hc, -⟩ := remove_succ heq
      exact ⟨GInv_congr hg hf hv ha hc, le_of_eq hc.symm⟩
    · obtain rfl : w = w2 := Option.some.inj hs
      exact ⟨hg, le_refl _⟩
  | getOp e =>
    simp only [World.step] at hs
    cases hget : w.get e with
    | none => rw [hget] at hs; exact Option.noConfusion hs
    | some r =>
      rw [hget] at hs
      simp only [Option.map_some'] at hs
      obtain rfl : w = w2 := Option.some.inj hs
      exact ⟨hg, le_refl _⟩
  | getMutOp e =>
    simp only [World.step] at hs
    cases hget : w.get_mut e with
    | none => rw [hget] at hs; exact Option.noConfusion hs
    | some r =>
      rw [hget] at hs
      simp only [Option.map_some'] at hs
      obtain rfl : w = w2 := Option.some.inj hs
      exact ⟨hg, le_refl _⟩
  | isAliveOp e =>
    simp only [World.step] at hs
    cases hget : w.is_alive e with
    | none => rw [hget] at hs; exact Option.noConfusion hs
    | some r =>
      rw [hget] at hs
      simp only [Option.map_some'] at hs
      obtain rfl : w = w2 := Option.some.inj hs
      exact ⟨hg, le_refl _⟩
  | sizeOp =>
    obtain rfl : w = w2 := Option.some.inj hs
    exact ⟨hg, le_refl _⟩
  | clearOp =>
    obtain rfl : w.clear = w2 := Option.some.inj hs
    exact ⟨GInv_clear hg, le_refl _⟩

/-- Running any list of public operations preserves the invariant. -/
theorem runOps_GInv {ops : List (Op T)} {w w2 : World T} (hg : GInv w)
    (hr : w.runOps ops = some w2) : GInv w2 := by
  induction ops generalizing w with
  | nil =>
    obtain rfl : w = w2 := Option.some.inj hr
    exact hg
  | cons op ops ih =>
    simp only [World.runOps] at hr
    split at hr
    · exact Option.noConfusion hr
    · rename_i wmid hstep
      exact ih (step_GInv_mono hg hstep).1 hr

/-- Once a slot is dead with its index below the high-water mark, every
public operation other than `clear` keeps it that way. -/
theorem step_DeadIdx {w w2 : World T} {op : Op T} {e0 : Entity} (hg : GInv w)
    (hd : DeadIdx w e0) (hnc : op.isClear = false) (hs : w.step op = some w2) :
    DeadIdx w2 e0 := by
  obtain ⟨hf, hlt, ha⟩ := hd
  cases op with
  | spawn =>
    simp only [World.step] at hs
    cases hsp : w.spawn with
    | none => rw [hsp] at hs; exact Option.noConfusion hs
    | some p =>
      rw [hsp] at hs
      obtain ⟨e, wn⟩ := p
      simp only [Option.map_some'] at hs
      obtain rfl : wn = w2 := Option.some.inj hs
      obtain ⟨-, -, hc, hg2, -, hpres⟩ := spawn_succ hg hsp
      exact ⟨hg2.1, by omega, hpres e0.index false (by omega) ha⟩
  | despawn e =>
    simp only [World.step] at hs
    split at hs
    · exact Option.noConfusion hs
    · rename_i w3 heq
      obtain rfl : w3 = w2 := Option.some.inj hs
      obtain ⟨-, -, hf3, hc3, -, ha3⟩ := despawn_succ heq
      refine ⟨by rw [hf3]; exact hf, by rw [hc3]; exact hlt, ?_⟩
      rw [ha3, List.getElem?_set]
      split
      · rename_i hcase
        rw [if_pos (show e.index < w.alive.length by
          rw [hcase]; exact lt_length_of_getElem?_some ha)]
      · exact ha
    · obtain rfl : w = w2 := Option.some.inj hs
      exact ⟨hf, hlt, ha⟩
  | addOp e c =>
    simp only [World.step] at hs
    split at hs
    · exact Option.noConfusion hs
    · rename_i w3 heq
      obtain rfl : w3 = w2 := Option.some.inj hs
      obtain ⟨-, -, hf3, ha3, hc3, -, -⟩ := add_succ heq
      exact ⟨by rw [hf3]; exact hf, by rw [hc3]; exact hlt, by rw [ha3]; exact ha⟩
    · obtain rfl : w = w2 := Option.some.inj hs
      exact ⟨hf, hlt, ha⟩
  | removeOp e =>
    simp only [World.step] at hs
    split at hs
    · exact Option.noConfusion hs
    · rename_i w3 heq
      obtain rfl : w3 = w2 := Option.some.inj hs
      obtain ⟨-, hf3, ha3, hc3, -⟩ := remove_succ heq
      exact ⟨by rw [hf3]; exact hf, by rw [hc3]; exact hlt, by rw [ha3]; exact ha⟩
    · obtain rfl : w = w2 := Option.some.inj hs
      exact ⟨hf, hlt, ha⟩
  | getOp e =>
    simp only [World.step] at hs
    cases hget : w.get e with
    | none => rw [hget] at hs; exact Option.noConfusion hs
    | some r =>
      rw [hget] at hs
      simp only [Option.map_some'] at hs
      obtain rfl : w = w2 := Option.some.inj hs
      exact ⟨hf, hlt, ha⟩
  | getMutOp e =>
    simp only [World.step] at hs
    cases hget : w.get_mut e with
    | none => rw [hget] at hs; exact Option.noConfusion hs
    | some r =>
      rw [hget] at hs
      simp only [Option.map_some'] at hs
      obtain rfl : w = w2 := Option.some.inj hs
      exact ⟨hf, hlt, ha⟩
  | isAliveOp e =>
    simp only [World.step] at hs
    cases hget : w.is_alive e with
    | none => rw [hget] at hs; exact Option.noConfusion hs
    | some r =>
      rw [hget] at hs
      simp only [Option.map_some'] at hs
      obtain rfl : w = w2 := Option.some.inj hs
      exact ⟨hf, hlt, ha⟩
  | sizeOp =>
    obtain rfl : w = w2 := Option.some.inj hs
    exact ⟨hf, hlt, ha⟩
  | clearOp =>
    simp [Op.isClear] at hnc

/-- Running any clear-free list of public operations keeps a dead slot
dead. -/
theorem runOps_DeadIdx {e0 : Entity} {ops : List (Op T)} {w w2 : World T}
    (hg : GInv w) (hd : DeadIdx w e0)
    (hnc : ops.all (fun o => !o.isClear) = true)
    (hr : w.runOps ops = some w2) : DeadIdx w2 e0 := by
  induction ops generalizing w with
  | nil =>
    obtain rfl : w = w2 := Option.some.inj hr
    exact hd
  | cons op ops ih =>
    simp only [List.all_cons, Bool.and_eq_true] at hnc
    simp only [World.runOps] at hr
    split at hr
    · exact Option.noConfusion hr
    · rename_i wmid hstep
      exact ih (step_GInv_mono hg hstep).1
        (step_DeadIdx hg hd (by simpa using hnc.1) hstep) hnc.2 hr

/-- Trace-level characterization: starting from an invariant state, the
entities returned by the `spawn` calls of any successful trace all carry
version 1 and strictly increasing indices drawn from the high-water mark. -/
theorem runTrace_spec {ops : List (Op T)} {w w2 : World T} {es : List Entity}
    (hg : GInv w) (ht : w.runTrace ops = some (w2, es)) :
    GInv w2 ∧ w.entity_counter ≤ w2.entity_counter ∧
    (∀ e ∈ es, e.version = 1 ∧ w.entity_counter ≤ e.index ∧
      e.index < w2.entity_counter) ∧
    es.Pairwise (fun a b => a.index < b.index) := by
  induction ops generalizing w es with
  | nil =>
    simp only [World.runTrace, Option.some.injEq, Prod.mk.injEq] at ht
    obtain ⟨rfl, rfl⟩ := ht
    exact ⟨hg, Nat.le_refl _, by simp, List.Pairwise.nil⟩
  | cons op ops ih =>
    cases op
    case spawn =>
      simp only [World.runTrace] at ht
      split at ht
      · exact Option.noConfusion ht
      · rename_i e wmid hsp
        split at ht
        · exact Option.noConfusion ht
        · rename_i w3 es2 hrest
          simp only [Option.some.injEq, Prod.mk.injEq] at ht
          obtain ⟨rfl, rfl⟩ := ht
          obtain ⟨hidx0, hver, hc, hg2, -, -⟩ := spawn_succ hg hsp
          obtain ⟨hg3, hmono, hmem, hpair⟩ := ih hg2 hrest
          refine ⟨hg3, by omega, ?_, ?_⟩
          · intro e2 he2
            rcases List.mem_cons.1 he2 with rfl | hmem2
            · exact ⟨hver, by omega, by have := hc ▸ hmono; omega⟩
            · obtain ⟨hv2, hge2, hlt2⟩ := hmem e2 hmem2
              exact ⟨hv2, by omega, hlt2⟩
          · refine List.Pairwise.cons ?_ hpair
            intro b hb
            obtain ⟨-, hge2, -⟩ := hmem b hb
            omega
    all_goals
      simp only [World.runTrace] at ht
      split at ht
      · exact Option.noConfusion ht
      · rename_i wmid hstep
        obtain ⟨hgmid, hcmid⟩ := step_GInv_mono hg hstep
        obtain ⟨hg3, hmono, hmem, hpair⟩ := ih hgmid ht
        refine ⟨hg3, by omega, ?_, hpair⟩
        intro e2 he2
        obtain ⟨hv2, hge2, hlt2⟩ := hmem e2 he2
        exact ⟨hv2, by omega, hlt2⟩

/-! ## Concrete evaluations of the claims that fail on the code -/

/-- Claim C1: `ComponentStorage.get` is total and signals absence as an
optional result even at a sentinel sparse entry.  In the code, a sentinel
entry makes `get_ptr` index `dense[u32::MAX]`, which is out of bounds and
panics: a freshly created storage for a world with one entity panics on
`get(0)`, and a storage holding a component for entity 1 only panics on
`get(0)` as well, while resolving entity 1 normally. -/
theorem c1_get_sentinel_panics :
    (ComponentStorage.new 1 : ComponentStorage Nat).get_ptr 0 = none ∧
    ((ComponentStorage.new 2 : ComponentStorage Nat).insert 1 7).get_ptr 0 = none ∧
    ((ComponentStorage.new 2 : ComponentStorage Nat).insert 1 7).get_ptr 1 = some (some 7) := by
  refine ⟨by decide, ?_, by decide⟩
  have hins : ((ComponentStorage.new 2 : ComponentStorage Nat).insert 1 7)
      = ⟨[u32Max, 0], [1], [7]⟩ := by decide
  rw [hins]
  show (if h : (0 : Nat) < ([u32Max, 0] : List Nat).length then _ else _) = none
  rw [dif_pos (by simp)]
  show (match ([1] : List Nat)[([u32Max, 0] : List Nat).get ⟨0, by simp⟩]? with
    | none => none
    | some entity_stored =>
      if entity_stored ≠ 0 then some none
      else
        match ([7] : List Nat)[([u32Max, 0] : List Nat).get ⟨0, by simp⟩]? with
        | none => none
        | some v => some (some v)) = none
  rw [show ([u32Max, 0] : List Nat).get ⟨0, by simp⟩ = u32Max from rfl,
    getElem?_singleton_u32Max]

/-- Claim C2: re-adding a component must overwrite in place.  In the code,
`insert` appends unconditionally: after `add(e, 10)` then `add(e, 20)` the
dense array holds two entries for entity 0 (the first orphaned), so the
storage does not hold exactly one value for the pair, even though reads
resolve to the newest value. -/
theorem c2_add_appends_duplicate :
    (World.runOps (World.new : World Nat)
        [Op.spawn, Op.addOp ⟨0, 1⟩ 10, Op.addOp ⟨0, 1⟩ 20]).map (fun w => w.storage)
      = some (some ⟨[1], [0, 0], [10, 20]⟩) ∧
    (⟨[1], [0, 0], [10, 20]⟩ : ComponentStorage Nat).dense.length = 2 ∧
    (⟨[1], [0, 0], [10, 20]⟩ : ComponentStorage Nat).get_ptr 0 = some (some 20) := by
  decide

/-- Claim C3: a successful `despawn` clears the liveness bit and leaves the
stored version unchanged, but the code never pushes the index onto the
free queue: after `spawn; despawn`, `free` is still empty. -/
theorem c3_despawn_does_not_enqueue :
    (World.runOps (World.new : World Unit) [Op.spawn, Op.despawn ⟨0, 1⟩]).map
        (fun w => (w.free, w.alive[0]?, w.versions[0]?, w.num_entities))
      = some ([], some false, some 1, 0) := by
  decide

/-- Claim C4: removing the element occupying the last dense slot must
succeed and return `true`.  In the code, after the swap-remove the fix-up
line reads `dense[dense_index]`, which is out of bounds exactly when the
removed slot was last: removing the only element panics, removing the last
of two panics, and at world level removing an entity's only component
panics.  Removing a middle element does succeed, but leaves the removed
entity's sparse slot stale (pointing at slot 1) instead of the sentinel. -/
theorem c4_remove_last_panics :
    (⟨[0], [0], [5]⟩ : ComponentStorage Nat).remove 0 = none ∧
    (⟨[0, 1], [0, 1], [10, 11]⟩ : ComponentStorage Nat).remove 1 = none ∧
    World.runOps (World.new : World Nat)
      [Op.spawn, Op.addOp ⟨0, 1⟩ 5, Op.removeOp ⟨0, 1⟩] = none ∧
    (⟨[0, 1, 2], [0, 1, 2], [10, 11, 12]⟩ : ComponentStorage Nat).remove 1
      = some (⟨[0, 1, 1], [0, 2], [10, 12]⟩, true) := by
  decide

/-- Claim C5: no public entry point fails uncatchably.  In the code,
`is_alive` indexes the liveness bitset unchecked: on a fresh world every
handle panics, and `get` panics through the same path. -/
theorem c5_is_alive_panics :
    (World.new : World Unit).is_alive ⟨0, 1⟩ = none ∧
    (World.new : World Unit).get ⟨0, 1⟩ = none ∧
    (World.new : World Unit).despawn ⟨0, 1⟩ = none := by
  decide

/-- Claim C6: after `clear()` the world must behave as freshly constructed.
In the code, `clear` does not reset `entity_counter`: the first spawn after
`spawn; clear` returns index 1, while a fresh world's first spawn returns
index 0.  (The component destructors are also skipped — the source marks
storage clearing `TODO` and drops the registry's raw pointers.) -/
theorem c6_clear_not_fresh :
    ((World.runOps (World.new : World Unit) [Op.spawn, Op.clearOp]).bind
        (fun w => w.spawn)).map (fun p => p.1) = some ⟨1, 1⟩ ∧
    ((World.new : World Unit).spawn).map (fun p => p.1) = some ⟨0, 1⟩ := by
  decide

/-- Claim C9: the reuse scenario.  In the code the premise never holds: after
`spawn A; add A Position(5); despawn A`, the next spawn returns index 1, not
`A`'s index 0 (despawn never frees the index).  Worse, `A`'s storage entry at
index 0 is left fully resolvable, so a reused handle would read `A`'s stale
value rather than get ComponentNotFound. -/
theorem c9_no_reuse_and_stale_entry :
    ((World.runOps (World.new : World Nat)
        [Op.spawn, Op.addOp ⟨0, 1⟩ 5, Op.despawn ⟨0, 1⟩]).bind
        (fun w => w.spawn)).map (fun p => p.1.index) = some 1 ∧
    (World.runOps (World.new : World Nat)
        [Op.spawn, Op.addOp ⟨0, 1⟩ 5, Op.despawn ⟨0, 1⟩]).map
        (fun w => w.storage.map (fun s => s.get_ptr 0))
      = some (some (some (some 5))) := by
  decide

/-! ## Claims C7, C8 and C10 -/

/-- Claim C7, counterexample to the claim as stated: the claim quantifies
over arbitrary intervening public operations, but `clear` is a public
operation and after `despawn(e); clear()` the next `is_alive(e)` (and
`get(e)`) indexes the emptied liveness bitset and panics instead of
returning `false` (resp. VersionMismatch). -/
theorem c7_clear_breaks_despawn_invalidity :
    World.spawn (World.new : World Unit) = some (⟨0, 1⟩, c7w1) ∧
    World.despawn c7w1 ⟨0, 1⟩ = some (Except.ok c7w2) ∧
    World.is_alive (World.clear c7w2) ⟨0, 1⟩ = none ∧
    World.get (World.clear c7w2) ⟨0, 1⟩ = none := by
  decide

/-- Claim C7 (amended: intervening operations drawn from spawn, despawn,
add, remove, get, get_mut, is_alive and size — `clear` excluded): once
`despawn(e)` succeeds in a reachable world, `is_alive(e)` returns `false`
and every subsequent `get`/`get_mut`/`add`/`remove` on `e` fails with
VersionMismatch, regardless of which clear-free operations (including
spawns) happen in between: the free queue stays empty, so no spawn ever
reuses `e`'s index. -/
theorem c7_despawned_stays_invalid {T : Type} {ops0 ops : List (Op T)}
    {w w1 w2 : World T} {e : Entity}
    (hreach : World.runOps (World.new : World T) ops0 = some w)
    (hd : w.despawn e = some (Except.ok w1))
    (hnc : ops.all (fun o => !o.isClear) = true)
    (hrun : w1.runOps ops = some w2) :
    w2.is_alive e = some false ∧
    w2.get e = some (Except.error Error.VersionMismatch) ∧
    w2.get_mut e = some (Except.error Error.VersionMismatch) ∧
    (∀ c : T, w2.add e c = some (Except.error Error.VersionMismatch)) ∧
    w2.remove e = some (Except.error Error.VersionMismatch) := by
  have hg : GInv w := runOps_GInv GInv_new hreach
  obtain ⟨hval, -, hf, hc, -, ha⟩ := despawn_succ hd
  have hlt : e.index < w.entity_counter := by
    by_contra hge
    exact Bool.noConfusion (hg.2.2.1 e.index true (Nat.le_of_not_lt hge) hval.1)
  have hbnd : e.index < w.alive.length := lt_length_of_getElem?_some hval.1
  have hd1 : DeadIdx w1 e := ⟨by rw [hf]; exact hg.1, by rw [hc]; exact hlt,
    by rw [ha]; exact List.getElem?_set_self hbnd⟩
  have hg1 : GInv w1 := GInv_despawn hg hd
  have hd2 : DeadIdx w2 e := runOps_DeadIdx hg1 hd1 hnc hrun
  have hcv : w2.check_valid_entity e = some (Except.error Error.VersionMismatch) :=
    check_valid_of_dead hd2.2.2
  refine ⟨hd2.2.2, ?_, ?_, ?_, ?_⟩
  · unfold World.get
    rw [hcv]
  · unfold World.get_mut
    rw [hcv]
  · intro c
    unfold World.add
    rw [hcv]
  · unfold World.remove
    rw [hcv]

/-- Witness for the amended C7: in the concrete scenario spawn; despawn;
spawn (the second spawn allocating a fresh index), the despawned handle
stays dead and all four accessors fail with VersionMismatch. -/
theorem c7_witness :
    (World.runOps (World.new : World Unit) [Op.spawn] = some c7w1) ∧
    (World.despawn c7w1 ⟨0, 1⟩ = some (Except.ok c7w2)) ∧
    (([Op.spawn] : List (Op Unit)).all (fun o => !o.isClear) = true) ∧
    (World.runOps c7w2 [Op.spawn] = some c7w3) ∧
    (World.is_alive c7w3 ⟨0, 1⟩ = some false ∧
      World.get c7w3 ⟨0, 1⟩ = some (Except.error Error.VersionMismatch) ∧
      World.get_mut c7w3 ⟨0, 1⟩ = some (Except.error Error.VersionMismatch) ∧
      (∀ c : Unit, World.add c7w3 ⟨0, 1⟩ c = some (Except.error Error.VersionMismatch)) ∧
      World.remove c7w3 ⟨0, 1⟩ = some (Except.error Error.VersionMismatch)) :=
  ⟨by decide, by decide, by decide, by decide,
    @c7_despawned_stays_invalid Unit [Op.spawn] [Op.spawn] c7w1 c7w2 c7w3 ⟨0, 1⟩
      (by decide) (by decide) (by decide) (by decide)⟩

/-- Claim C8, counterexample to the claim as stated: on a fresh world the
handle `⟨0,1⟩` is invalid (no slot is alive), so the claim requires
`add` to fail with VersionMismatch; the code instead panics indexing the
empty liveness bitset. -/
theorem c8_add_panics_out_of_range :
    (World.new : World Unit).add ⟨0, 1⟩ () = none ∧
    (World.new : World Unit).add ⟨0, 1⟩ () ≠ some (Except.error Error.VersionMismatch) := by
  decide

/-- Claim C8 (amended: for handles whose index is within the allocated
slot range of a reachable world): `add` fails with VersionMismatch exactly
when the handle is invalid, never fails with ComponentNotFound, and on a
valid handle succeeds, lazily creating the storage for the component type
with no prior registration step. -/
theorem c8_add_versionmismatch_iff {T : Type} {ops : List (Op T)}
    {w : World T} {e : Entity}
    (hreach : World.runOps (World.new : World T) ops = some w)
    (hidx : e.index < w.alive.length) (c : T) :
    (w.add e c = some (Except.error Error.VersionMismatch) ↔ ¬ Valid w e) ∧
    w.add e c ≠ some (Except.error Error.ComponentNotFound) ∧
    (Valid w e → ∃ w2, w.add e c = some (Except.ok w2) ∧ w2.storage.isSome = true) := by
  have hg : GInv w := runOps_GInv GInv_new hreach
  have hidxv : e.index < w.versions.length := by
    rw [hg.2.1]
    exact hidx
  obtain ⟨b, hb⟩ : ∃ b, w.alive[e.index]? = some b := by
    cases hx : w.alive[e.index]? with
    | none =>
      rw [List.getElem?_eq_none_iff] at hx
      omega
    | some b => exact ⟨b, rfl⟩
  cases b with
  | false =>
    have hcv := check_valid_of_dead hb
    have hnv : ¬ Valid w e := fun hval => by
      rw [hval.1] at hb
      exact Bool.noConfusion (Option.some.inj hb)
    refine ⟨⟨fun _ => hnv, fun _ => ?_⟩, ?_, fun hval => absurd hval hnv⟩
    · unfold World.add
      rw [hcv]
    · unfold World.add
      rw [hcv]
      simp
  | true =>
    obtain ⟨v, hv⟩ : ∃ v, w.versions[e.index]? = some v := by
      cases hx : w.versions[e.index]? with
      | none =>
        rw [List.getElem?_eq_none_iff] at hx
        omega
      | some v => exact ⟨v, rfl⟩
    by_cases hveq : v = e.version
    · subst hveq
      have hval : Valid w e := ⟨hb, hv⟩
      have hcv := check_valid_of_valid hval
      have hadd : w.add e c = some (Except.ok
          { w with storage := some ((match w.storage with
              | some s => s
              | none => ComponentStorage.new w.num_entities).insert e.index c) }) := by
        unfold World.add
        rw [hcv]
      refine ⟨⟨fun habs => ?_, fun hnv => absurd hval hnv⟩, ?_, fun _ => ⟨_, hadd, rfl⟩⟩
      · rw [hadd] at habs
        simp at habs
      · rw [hadd]
        simp
    · have hnv : ¬ Valid w e := fun hval => hveq (Option.some.inj (hv.symm.trans hval.2))
      have hcv : w.check_valid_entity e = some (Except.error Error.VersionMismatch) := by
        unfold World.check_valid_entity
        rw [hb, hv]
        simp [hveq]
      refine ⟨⟨fun _ => hnv, fun _ => ?_⟩, ?_, fun hval => absurd hval hnv⟩
      · unfold World.add
        rw [hcv]
      · unfold World.add
        rw [hcv]
        simp

/-- Witness for the amended C8 at the reachable world with one spawned
entity and the valid handle `⟨0,1⟩`. -/
theorem c8_witness :
    (World.runOps (World.new : World Unit) [Op.spawn] = some c8w) ∧
    ((⟨0, 1⟩ : Entity).index < c8w.alive.length) ∧
    ((c8w.add ⟨0, 1⟩ () = some (Except.error Error.VersionMismatch) ↔ ¬ Valid c8w ⟨0, 1⟩) ∧
      c8w.add ⟨0, 1⟩ () ≠ some (Except.error Error.ComponentNotFound) ∧
      (Valid c8w ⟨0, 1⟩ →
        ∃ w2, c8w.add ⟨0, 1⟩ () = some (Except.ok w2) ∧ w2.storage.isSome = true)) :=
  ⟨by decide, by decide,
    @c8_add_versionmismatch_iff Unit [Op.spawn] c8w ⟨0, 1⟩ (by decide) (by decide) ()⟩

/-- Claim C10: in every reachable world the free queue is empty (despawn
never enqueues), so every entity a successful trace ever obtains from
`spawn` carries version exactly 1 and a fresh index below the high-water
mark, and no two spawned handles share an index. -/
theorem c10_fresh_indices {T : Type} {ops : List (Op T)} {w : World T}
    {es : List Entity}
    (h : World.runTrace (World.new : World T) ops = some (w, es)) :
    w.free = [] ∧
    (∀ e ∈ es, e.version = 1 ∧ e.index < w.entity_counter) ∧
    es.Pairwise (fun a b => a.index ≠ b.index) := by
  obtain ⟨hg, -, hmem, hpair⟩ := runTrace_spec GInv_new h
  exact ⟨hg.1, fun e he => ⟨(hmem e he).1, (hmem e he).2.2⟩,
    hpair.imp (fun h2 => Nat.ne_of_lt h2)⟩

/-- Witness for C10 on the concrete trace of two spawns. -/
theorem c10_witness :
    (World.runTrace (World.new : World Unit) [Op.spawn, Op.spawn]
      = some (c10w, [⟨0, 1⟩, ⟨1, 1⟩])) ∧
    (c10w.free = [] ∧
      (∀ e ∈ [(⟨0, 1⟩ : Entity), ⟨1, 1⟩], e.version = 1 ∧ e.index < c10w.entity_counter) ∧
      ([(⟨0, 1⟩ : Entity), ⟨1, 1⟩]).Pairwise (fun a b => a.index ≠ b.index)) :=
  ⟨by decide,
    @c10_fresh_indices Unit [Op.spawn, Op.spawn] c10w [⟨0, 1⟩, ⟨1, 1⟩] (by decide)⟩

end Flaecs
